import Mathlib

/-!
Shallow embedding of src/oauth2.py (class SpotifyOAuth).

Modelling conventions:
* JSON objects are association lists `Obj := List (String × JVal)` with
  string and integer leaves (the only value shapes the module manipulates).
* Time (`time.time()`) is an integer number of Unix seconds passed in
  explicitly; `round` on it is the identity.
* The cache file is a `CacheState`: `missing` (opening raises IOError),
  `invalidJson` (contents do not parse, `json.loads` raises
  JSONDecodeError) or `parsed o` (contents parse to the object `o`).
  Representing the file by its parse result bakes in the
  `json.dumps`/`json.loads` round-trip for string/integer objects.
* The network is an oracle `Http` mapping the form-encoded POST body that
  `requests.post` sends to its outcome: the request raised, the body
  failed to parse, or the body parsed to a JSON object.  The
  `Authorization` header (`encode_header`) carries only the static client
  credentials and is not part of the oracle's input.
* Python exceptions become the `PyErr` error type; each operation returns
  `Except PyErr α × CacheState`, the final cache state being threaded
  explicitly (an error leaves the cache untouched exactly when the code
  raises before writing).
-/

/-- JSON leaf values occurring in token records: strings and integers. -/
inductive JVal where
  | str (s : String)
  | int (n : Int)
deriving DecidableEq

/-- A JSON object, as the association list of its fields. -/
abbrev Obj : Type := List (String × JVal)

deriving instance DecidableEq for Except

/-- Python `d[k]` read on a dict: the value stored at key `k`, if any. -/
def dget : Obj → String → Option JVal
  | [], _ => none
  | (k0, v0) :: rest, k => if k0 = k then some v0 else dget rest k

/-- Python `d[k] = v` on a dict: replace the value at `k` in place, or
append the new binding at the end when `k` is not present (dict keys are
unique, so replacing the first occurrence is exact). -/
def dset : Obj → String → JVal → Obj
  | [], k, v => [(k, v)]
  | (k0, v0) :: rest, k, v =>
      if k0 = k then (k, v) :: rest else (k0, v0) :: dset rest k v

/-- Model of Python `int(...)` on the JSON leaf values: an integer passes
through, a string is parsed as a decimal integer (ValueError, i.e.
`none`, otherwise). -/
def pyInt : JVal → Option Int
  | .int n => some n
  | .str s => s.toInt?

/-- The Python exceptions the module can raise or catch. -/
inductive PyErr where
  | ioError
  | jsonDecodeError
  | keyError (key : String)
  | valueError
  | typeError
  | requestsError
deriving DecidableEq

/-- The cache file, abstracted by what reading and `json.loads`-ing it
yields. -/
inductive CacheState where
  | missing
  | invalidJson
  | parsed (o : Obj)
deriving DecidableEq

/-- Outcome of `requests.post` followed by decoding and `json.loads` on
the response body. -/
inductive HttpResult where
  | failed
  | badBody
  | body (o : Obj)
deriving DecidableEq

/-- The network oracle: from the form-encoded POST body to the outcome. -/
def Http : Type := List (String × JVal) → HttpResult

/-- Configuration held by a `SpotifyOAuth` instance (its `__init__`
fields); `cache` is the cache file path, whose content is modelled
separately by `CacheState`. -/
structure SpotifyOAuth where
  client_id : String
  client_secret : String
  redirect : String
  scopes : String
  cache : String

/-- Line 42: `(time.time() + 30) > token_expire`. -/
def is_token_expired (now : Int) (token_expire : Int) : Bool :=
  decide (now + 30 > token_expire)

/-- Lines 101-108, `save_token`: stamp `expires_at := round(time.time()) +
int(token['expires_in'])` onto the token, then overwrite the cache file
with the result.  The mutated token is returned, modelling the in-place
mutation of the caller's dict; a KeyError (no `expires_in`) or ValueError
(non-integer `expires_in`) is raised before the file is opened, leaving
the cache untouched. -/
def save_token (now : Int) (token : Obj) (cache : CacheState) :
    Except PyErr Obj × CacheState :=
  match dget token "expires_in" with
  | none => (.error (.keyError "expires_in"), cache)
  | some v =>
    match pyInt v with
    | none => (.error .valueError, cache)
    | some n =>
      let written := dset token "expires_at" (.int (now + n))
      (.ok written, .parsed written)

/-- The form body posted by `refresh_token` (lines 50-51). -/
def refresh_body (rt : JVal) : List (String × JVal) :=
  [("grant_type", .str "refresh_token"), ("refresh_token", rt)]

/-- The form body posted by `retrieve_access_token` (lines 71-73). -/
def exchange_body (code : String) (redirect : String) : List (String × JVal) :=
  [("grant_type", .str "authorization_code"), ("code", .str code),
   ("redirect_uri", .str redirect)]

/-- Lines 44-55, `refresh_token`: POST the refresh body, parse the
response, persist via `save_token` and return the token.  A transport
failure or an unparsable body raises; there is no retry. -/
def refresh_token (http : Http) (now : Int) (rt : JVal)
    (cache : CacheState) : Except PyErr Obj × CacheState :=
  match http (refresh_body rt) with
  | .failed => (.error .requestsError, cache)
  | .badBody => (.error .jsonDecodeError, cache)
  | .body token => save_token now token cache

/-- Lines 65-77, `retrieve_access_token`: same transport contract as
`refresh_token` with the authorization-code body. -/
def retrieve_access_token (oauth : SpotifyOAuth) (http : Http) (now : Int)
    (code : String) (cache : CacheState) : Except PyErr Obj × CacheState :=
  match http (exchange_body code oauth.redirect) with
  | .failed => (.error .requestsError, cache)
  | .badBody => (.error .jsonDecodeError, cache)
  | .body token => save_token now token cache

/-- Lines 25-27 of `get_credentials`: the read-and-parse step alone
(`json.loads(open(cache).read())`), with its two failure modes. -/
def read_cache : CacheState → Except PyErr Obj
  | .missing => .error .ioError
  | .invalidJson => .error .jsonDecodeError
  | .parsed o => .ok o

/-- Lines 20-34, `get_credentials`: read the cache; on IOError or
JSONDecodeError return `None` (modelled `.ok none`).  Otherwise look up
`creds['expires_at']` (KeyError propagates, a non-integer value makes the
`>` comparison raise TypeError); if expired, look up
`creds['refresh_token']` (KeyError propagates) and refresh.  The
`except (IOError, json.decoder.JSONDecodeError)` clause also catches
those two exception classes when they escape the refresh call inside the
`try` block. -/
def get_credentials (http : Http) (now : Int) (cache : CacheState) :
    Except PyErr (Option Obj) × CacheState :=
  match cache with
  | .missing => (.ok none, cache)
  | .invalidJson => (.ok none, cache)
  | .parsed creds =>
    match dget creds "expires_at" with
    | none => (.error (.keyError "expires_at"), cache)
    | some (.str _) => (.error .typeError, cache)
    | some (.int texp) =>
      if is_token_expired now texp then
        match dget creds "refresh_token" with
        | none => (.error (.keyError "refresh_token"), cache)
        | some rv =>
          match refresh_token http now rv cache with
          | (.ok tok, cache2) => (.ok (some tok), cache2)
          | (.error .jsonDecodeError, cache2) => (.ok none, cache2)
          | (.error .ioError, cache2) => (.ok none, cache2)
          | (.error e, cache2) => (.error e, cache2)
      else (.ok (some creds), cache)

/-- Line 10: the authorization endpoint. -/
def oauth_auth_url : String := "https://accounts.spotify.com/authorize"

/-- Characters `urllib.parse.quote` never encodes: ASCII letters, digits
and `_.-~`. -/
def alwaysSafe (c : Char) : Bool :=
  (65 ≤ c.toNat && c.toNat ≤ 90) || (97 ≤ c.toNat && c.toNat ≤ 122) ||
  (48 ≤ c.toNat && c.toNat ≤ 57) ||
  c = '_' || c = '.' || c = '-' || c = '~'

/-- The UTF-8 encoding of a character, as its list of bytes. -/
def utf8Bytes (c : Char) : List Nat :=
  if c.toNat < 128 then [c.toNat]
  else if c.toNat < 2048 then [192 + c.toNat / 64, 128 + c.toNat % 64]
  else if c.toNat < 65536 then
    [224 + c.toNat / 4096, 128 + c.toNat / 64 % 64, 128 + c.toNat % 64]
  else
    [240 + c.toNat / 262144, 128 + c.toNat / 4096 % 64,
     128 + c.toNat / 64 % 64, 128 + c.toNat % 64]

/-- Upper-case hexadecimal digit, as produced by `urllib.parse.quote`. -/
def hexDigit (n : Nat) : Char :=
  if n < 10 then Char.ofNat (48 + n) else Char.ofNat (55 + n)

/-- Percent-escape of one byte: `%XX`. -/
def pctByte (b : Nat) : List Char :=
  ['%', hexDigit (b / 16), hexDigit (b % 16)]

/-- `urllib.parse.quote_plus` on one character (with `safe=''`, as
`urlencode` uses it): space becomes `+`, always-safe characters pass
through, everything else is percent-escaped byte by byte. -/
def quote_plus_char (c : Char) : List Char :=
  if c = ' ' then ['+']
  else if alwaysSafe c then [c]
  else (utf8Bytes c).flatMap pctByte

/-- `urllib.parse.quote_plus` on a string. -/
def quote_plus (s : String) : String :=
  String.mk (s.data.flatMap quote_plus_char)

/-- `urllib.parse.urlencode`: `&`-join of the `quote_plus`-encoded
`key=value` pairs. -/
def urlencode : List (String × String) → String
  | [] => ""
  | [(k, v)] => quote_plus k ++ "=" ++ quote_plus v
  | (k, v) :: rest => quote_plus k ++ "=" ++ quote_plus v ++ "&" ++ urlencode rest

/-- Lines 79-88, `get_authorize_url`: the authorization endpoint with the
url-encoded query parameters appended. -/
def get_authorize_url (oauth : SpotifyOAuth) : String :=
  oauth_auth_url ++ "?" ++ urlencode
    [("client_id", oauth.client_id), ("response_type", "code"),
     ("redirect_uri", oauth.redirect), ("scope", oauth.scopes)]

/-- Value of a hexadecimal digit character. -/
def hexVal (c : Char) : Option Nat :=
  if 48 ≤ c.toNat ∧ c.toNat ≤ 57 then some (c.toNat - 48)
  else if 65 ≤ c.toNat ∧ c.toNat ≤ 70 then some (c.toNat - 55)
  else if 97 ≤ c.toNat ∧ c.toNat ≤ 102 then some (c.toNat - 87)
  else none

/-- Standard query-string decoding of an encoded value, to its byte
sequence: `+` denotes a space, `%XX` denotes the byte `XX`, any other
character stands for its own UTF-8 bytes. -/
def pctDecodeBytes : List Char → List Nat
  | [] => []
  | c :: h1 :: h2 :: rest =>
    if c = '+' then 32 :: pctDecodeBytes (h1 :: h2 :: rest)
    else if c = '%' then
      match hexVal h1, hexVal h2 with
      | some a, some b => (16 * a + b) :: pctDecodeBytes rest
      | _, _ => c.toNat :: pctDecodeBytes (h1 :: h2 :: rest)
    else c.toNat :: pctDecodeBytes (h1 :: h2 :: rest)
  | c :: rest =>
    if c = '+' then 32 :: pctDecodeBytes rest
    else c.toNat :: pctDecodeBytes rest

/-- The UTF-8 byte sequence of a string. -/
def strBytes (s : String) : List Nat := s.data.flatMap utf8Bytes

/-- Does `pat` occur at the very start of `s`? -/
def leadsWith : List Char → List Char → Bool
  | [], _ => true
  | _ :: _, [] => false
  | a :: as, b :: bs => a = b && leadsWith as bs

/-- Python `str.split(sep)` on character lists, with explicit fuel (one
unit per character consumed, so `s.length` suffices): scan left to right,
cut at each non-overlapping occurrence of `sep`. -/
def pySplitF (sep : List Char) : Nat → List Char → List (List Char)
  | _, [] => [[]]
  | 0, s => [s]
  | fuel + 1, c :: rest =>
    if sep ≠ [] ∧ leadsWith sep (c :: rest) = true then
      [] :: pySplitF sep fuel ((c :: rest).drop sep.length)
    else
      match pySplitF sep fuel rest with
      | [] => [[c]]
      | hd :: tl => (c :: hd) :: tl

/-- Python `str.split(sep)` on character lists. -/
def pySplit (sep : List Char) (s : List Char) : List (List Char) :=
  pySplitF sep s.length s

/-- Lines 90-99, `parse_response_code`:
`url.split('?code=')[1].split('&')[0]`, with the IndexError from `[1]`
caught and turned into `None` (Python's implicit return). -/
def parse_response_code (url : String) : Option String :=
  match pySplit ("?code=".data) url.data with
  | _ :: second :: _ => some (String.mk ((pySplit ['&'] second).headD []))
  | _ => none

/-- Everything after the first occurrence of `m` in `s`, if `m` occurs. -/
def afterFirst (m : List Char) : List Char → Option (List Char)
  | [] => none
  | c :: rest =>
    if leadsWith m (c :: rest) then some ((c :: rest).drop m.length)
    else afterFirst m rest

/-- The part of `s` before the first occurrence of `m` (all of `s` when
`m` does not occur). -/
def upToFirst (m : List Char) : List Char → List Char
  | [] => []
  | c :: rest =>
    if leadsWith m (c :: rest) then [] else c :: upToFirst m rest

/-- The part of `s` before the first `&` or the first occurrence of `m`,
whichever comes first. -/
def upToStop (m : List Char) : List Char → List Char
  | [] => []
  | c :: rest =>
    if c = '&' || leadsWith m (c :: rest) then [] else c :: upToStop m rest

/-- Modelled from the spec's words for `extractCodeFromRedirect` (§4.1):
"look for the literal substring `?code=`, take everything after it up to
the next `&` (or end of string)"; absent when the marker is not found.
Stated separately from `parse_response_code` so the two can be
compared. -/
def extractCodeFromRedirect_spec (url : String) : Option String :=
  (afterFirst ("?code=".data) url.data).map
    (fun t => String.mk (t.takeWhile (fun c => c ≠ '&')))

/-! ### Concrete fixtures used to exercise the operations -/

/-- A well-formed token-endpoint response. -/
def sampleResp : Obj :=
  [("access_token", .str "newtok"), ("token_type", .str "Bearer"),
   ("scope", .str "user-read-email"), ("expires_in", .int 3600),
   ("refresh_token", .str "RT2")]

/-- A token-endpoint response that omits `refresh_token`. -/
def sampleRespNoRT : Obj :=
  [("access_token", .str "n2"), ("token_type", .str "Bearer"),
   ("scope", .str "user-read-email"), ("expires_in", .int 3600)]

/-- An oracle whose token endpoint always answers with `sampleResp`. -/
def sampleHttp : Http := fun _ => .body sampleResp

/-- `sampleResp` as written by `save_token` at time 1000. -/
def sampleSaved : Obj := sampleResp ++ [("expires_at", JVal.int 4600)]

/-- A cached token record whose `expires_at` is 1010. -/
def sampleCreds : Obj :=
  [("access_token", .str "oldtok"), ("token_type", .str "Bearer"),
   ("scope", .str "user-read-email"), ("expires_in", .int 3600),
   ("refresh_token", .str "RT"), ("expires_at", .int 1010)]

/-! ### Helper lemmas about the dict operations -/

theorem dget_dset_self (o : Obj) (k : String) (v : JVal) :
    dget (dset o k v) k = some v := by
  induction o with
  | nil => simp [dset, dget]
  | cons p rest ih =>
    obtain ⟨k0, v0⟩ := p
    by_cases h : k0 = k <;> simp [dset, dget, h, ih]

theorem dget_dset_ne (o : Obj) (k k' : String) (v : JVal) (h : k' ≠ k) :
    dget (dset o k v) k' = dget o k' := by
  have hk : k ≠ k' := fun hk => h hk.symm
  induction o with
  | nil => simp [dset, dget, hk]
  | cons p rest ih =>
    obtain ⟨k0, v0⟩ := p
    by_cases h0 : k0 = k
    · subst h0
      simp [dset, dget, hk]
    · by_cases h1 : k0 = k' <;> simp [dset, dget, h, h0, h1, ih]

/-! ### Helper lemmas for the url encoding round-trip -/

theorem char_toNat_lt (c : Char) : c.toNat < 1114112 := by
  have h := c.valid
  simp [UInt32.isValidChar, Nat.isValidChar] at h
  show c.val.toNat < 1114112
  omega

theorem hexVal_hexDigit (n : Nat) (h : n < 16) :
    hexVal (hexDigit n) = some n := by
  interval_cases n <;> decide

theorem utf8Bytes_lt (c : Char) : ∀ b ∈ utf8Bytes c, b < 256 := by
  have hc := char_toNat_lt c
  intro b hb
  unfold utf8Bytes at hb
  split at hb
  · simp at hb
    omega
  · split at hb
    · simp at hb
      rcases hb with hb | hb <;> omega
    · split at hb
      · simp at hb
        rcases hb with hb | hb | hb <;> omega
      · simp at hb
        rcases hb with hb | hb | hb | hb <;> omega

theorem pctDecodeBytes_cons (c : Char) (hplus : c ≠ '+') (hpct : c ≠ '%')
    (l : List Char) : pctDecodeBytes (c :: l) = c.toNat :: pctDecodeBytes l := by
  match l with
  | [] => simp [pctDecodeBytes, hplus, hpct]
  | [d] => simp [pctDecodeBytes, hplus, hpct]
  | d :: e :: rest => simp [pctDecodeBytes, hplus, hpct]

theorem pctDecodeBytes_plus (l : List Char) :
    pctDecodeBytes ('+' :: l) = 32 :: pctDecodeBytes l := by
  match l with
  | [] => rfl
  | [d] => simp [pctDecodeBytes]
  | d :: e :: rest => simp [pctDecodeBytes]

theorem pctDecodeBytes_pctByte (b : Nat) (hb : b < 256) (l : List Char) :
    pctDecodeBytes (pctByte b ++ l) = b :: pctDecodeBytes l := by
  have h1 : hexVal (hexDigit (b / 16)) = some (b / 16) :=
    hexVal_hexDigit _ (by omega)
  have h2 : hexVal (hexDigit (b % 16)) = some (b % 16) :=
    hexVal_hexDigit _ (by omega)
  simp [pctByte, pctDecodeBytes, h1, h2]
  omega

theorem pctDecodeBytes_flat (bytes : List Nat) (hb : ∀ b ∈ bytes, b < 256)
    (l : List Char) :
    pctDecodeBytes (bytes.flatMap pctByte ++ l) = bytes ++ pctDecodeBytes l := by
  induction bytes with
  | nil => simp
  | cons b rest ih =>
    have h1 : b < 256 := hb b (by simp)
    have h2 : ∀ x ∈ rest, x < 256 := fun x hx => hb x (by simp [hx])
    simp only [List.flatMap_cons, List.append_assoc]
    rw [pctDecodeBytes_pctByte b h1, ih h2]
    simp

theorem alwaysSafe_ascii (c : Char) (h : alwaysSafe c = true) :
    c ≠ '+' ∧ c ≠ '%' ∧ c.toNat < 128 := by
  have hlt : c.toNat < 128 := by
    simp only [alwaysSafe, Bool.or_eq_true, Bool.and_eq_true,
      decide_eq_true_eq] at h
    repeat' rcases h with h | h
    all_goals first | omega | decide
  refine ⟨?_, ?_, hlt⟩ <;> rintro rfl <;> revert h <;> decide

theorem pctDecodeBytes_char (c : Char) (l : List Char) :
    pctDecodeBytes (quote_plus_char c ++ l) = utf8Bytes c ++ pctDecodeBytes l := by
  by_cases hsp : c = ' '
  · subst hsp
    have hu : utf8Bytes ' ' = [32] := by decide
    have hq : quote_plus_char ' ' = ['+'] := by decide
    rw [hq, hu]
    simpa using pctDecodeBytes_plus l
  · by_cases hsafe : alwaysSafe c = true
    · obtain ⟨hplus, hpct, hlt⟩ := alwaysSafe_ascii c hsafe
      have hb : utf8Bytes c = [c.toNat] := by
        unfold utf8Bytes
        simp [hlt]
      have hq : quote_plus_char c = [c] := by
        simp [quote_plus_char, hsp, hsafe]
      rw [hq, hb]
      simpa using pctDecodeBytes_cons c hplus hpct l
    · simp only [quote_plus_char, hsp, hsafe, if_false]
      exact pctDecodeBytes_flat _ (utf8Bytes_lt c) l

theorem pctDecode_quote_plus_list (l : List Char) :
    pctDecodeBytes (l.flatMap quote_plus_char) = l.flatMap utf8Bytes := by
  induction l with
  | nil => simp [pctDecodeBytes]
  | cons c rest ih =>
    simp only [List.flatMap_cons]
    rw [pctDecodeBytes_char c, ih]

theorem pctDecode_quote_plus (s : String) :
    pctDecodeBytes (quote_plus s).data = strBytes s :=
  pctDecode_quote_plus_list s.data

/-! ### Helper lemmas about the split-based code extraction -/

theorem pySplitF_congr (sep : List Char) :
    ∀ f g s, s.length ≤ f → s.length ≤ g →
      pySplitF sep f s = pySplitF sep g s := by
  intro f
  induction f with
  | zero =>
    intro g s hf hg
    have hs : s = [] := List.eq_nil_of_length_eq_zero (Nat.le_zero.mp hf)
    subst hs
    cases g <;> rfl
  | succ f ihf =>
    intro g s hf hg
    cases s with
    | nil => cases g <;> rfl
    | cons c rest =>
      cases g with
      | zero => simp at hg
      | succ g2 =>
        simp only [pySplitF]
        by_cases hcond : sep ≠ [] ∧ leadsWith sep (c :: rest) = true
        · rw [if_pos hcond, if_pos hcond]
          have hsep : 0 < sep.length := List.length_pos.mpr hcond.1
          have hlen : ((c :: rest).drop sep.length).length ≤ f := by
            simp only [List.length_drop, List.length_cons]
            simp only [List.length_cons] at hf
            omega
          have hlen2 : ((c :: rest).drop sep.length).length ≤ g2 := by
            simp only [List.length_drop, List.length_cons]
            simp only [List.length_cons] at hg
            omega
          rw [ihf g2 _ hlen hlen2]
        · rw [if_neg hcond, if_neg hcond]
          have hlen : rest.length ≤ f := by
            simp only [List.length_cons] at hf
            omega
          have hlen2 : rest.length ≤ g2 := by
            simp only [List.length_cons] at hg
            omega
          rw [ihf g2 rest hlen hlen2]

theorem pySplit_cons_pos (sep : List Char) (c : Char) (rest : List Char)
    (hsep : sep ≠ []) (hlead : leadsWith sep (c :: rest) = true) :
    pySplit sep (c :: rest) = [] :: pySplit sep ((c :: rest).drop sep.length) := by
  show pySplitF sep (c :: rest).length (c :: rest) = _
  simp only [List.length_cons, pySplitF]
  rw [if_pos ⟨hsep, hlead⟩]
  have hsl : 0 < sep.length := List.length_pos.mpr hsep
  have h1 : ((c :: rest).drop sep.length).length ≤ rest.length := by
    simp only [List.length_drop, List.length_cons]
    omega
  rw [pySplitF_congr sep rest.length ((c :: rest).drop sep.length).length _ h1
    le_rfl]
  rfl

theorem pySplit_cons_neg (sep : List Char) (c : Char) (rest : List Char)
    (h : ¬(sep ≠ [] ∧ leadsWith sep (c :: rest) = true)) :
    pySplit sep (c :: rest) =
      match pySplit sep rest with
      | [] => [[c]]
      | hd :: tl => (c :: hd) :: tl := by
  show pySplitF sep (c :: rest).length (c :: rest) = _
  simp only [List.length_cons, pySplitF]
  rw [if_neg h]
  rfl

theorem pySplit_ne_nil (sep s : List Char) : pySplit sep s ≠ [] := by
  cases s with
  | nil => simp [pySplit, pySplitF]
  | cons c rest =>
    by_cases hcond : sep ≠ [] ∧ leadsWith sep (c :: rest) = true
    · rw [pySplit_cons_pos sep c rest hcond.1 hcond.2]
      simp
    · rw [pySplit_cons_neg sep c rest hcond]
      cases pySplit sep rest <;> simp

theorem pySplit_structure (m : List Char) (hm : m ≠ []) : ∀ s,
    (afterFirst m s = none → pySplit m s = [s]) ∧
    (∀ t, afterFirst m s = some t →
      pySplit m s = upToFirst m s :: pySplit m t) := by
  intro s
  induction s with
  | nil =>
    constructor
    · intro _; rfl
    · intro t ht; simp [afterFirst] at ht
  | cons c rest ih =>
    by_cases hlead : leadsWith m (c :: rest) = true
    · constructor
      · intro h
        simp [afterFirst, hlead] at h
      · intro t ht
        simp only [afterFirst, hlead, if_pos, Option.some.injEq] at ht
        subst ht
        rw [pySplit_cons_pos m c rest hm hlead]
        simp [upToFirst, hlead]
    · constructor
      · intro h
        have h2 : afterFirst m rest = none := by
          simpa [afterFirst, hlead] using h
        rw [pySplit_cons_neg m c rest (fun hc => hlead hc.2), ih.1 h2]
      · intro t ht
        have ht2 : afterFirst m rest = some t := by
          simpa [afterFirst, hlead] using ht
        rw [pySplit_cons_neg m c rest (fun hc => hlead hc.2), ih.2 t ht2]
        simp [upToFirst, hlead]

theorem upToFirst_of_none (m : List Char) :
    ∀ s, afterFirst m s = none → upToFirst m s = s := by
  intro s
  induction s with
  | nil => intro _; rfl
  | cons c rest ih =>
    intro h
    by_cases hlead : leadsWith m (c :: rest) = true
    · simp [afterFirst, hlead] at h
    · have h2 : afterFirst m rest = none := by simpa [afterFirst, hlead] using h
      simp [upToFirst, hlead, ih h2]

theorem headD_pySplit (m : List Char) (hm : m ≠ []) (s : List Char) :
    (pySplit m s).headD [] = upToFirst m s := by
  cases haf : afterFirst m s with
  | none => rw [(pySplit_structure m hm s).1 haf, upToFirst_of_none m s haf]; rfl
  | some t => rw [(pySplit_structure m hm s).2 t haf]; rfl

theorem upToFirst_amp (m : List Char) :
    ∀ t, upToFirst ['&'] (upToFirst m t) = upToStop m t := by
  intro t
  induction t with
  | nil => rfl
  | cons c rest ih =>
    by_cases hl : leadsWith m (c :: rest) = true
    · simp [upToFirst, upToStop, hl]
    · by_cases hc : c = '&'
      · subst hc
        simp [upToFirst, upToStop, hl, leadsWith]
      · have hc2 : ¬('&' = c) := fun he => hc he.symm
        simp [upToFirst, upToStop, hl, hc, hc2, leadsWith, ih]

theorem parse_code_none_iff (url : String) :
    parse_response_code url = none ↔
      afterFirst ("?code=".data) url.data = none := by
  have hm : ("?code=".data : List Char) ≠ [] := by decide
  constructor
  · intro h
    cases haf : afterFirst ("?code=".data) url.data with
    | none => rfl
    | some t =>
      exfalso
      have hsp := (pySplit_structure _ hm url.data).2 t haf
      cases hps : pySplit ("?code=".data) t with
      | nil => exact pySplit_ne_nil _ _ hps
      | cons hd tl =>
        rw [hps] at hsp
        simp [parse_response_code, hsp] at h
  · intro haf
    have hsp := (pySplit_structure _ hm url.data).1 haf
    simp [parse_response_code, hsp]

theorem parse_code_some (url : String) (t : List Char)
    (haf : afterFirst ("?code=".data) url.data = some t) :
    parse_response_code url = some (String.mk (upToStop ("?code=".data) t)) := by
  have hm : ("?code=".data : List Char) ≠ [] := by decide
  have hamp : (['&'] : List Char) ≠ [] := by decide
  have hsp := (pySplit_structure _ hm url.data).2 t haf
  have hhead : (pySplit ("?code=".data) t).headD [] =
      upToFirst ("?code=".data) t := headD_pySplit _ hm t
  cases hps : pySplit ("?code=".data) t with
  | nil => exact absurd hps (pySplit_ne_nil _ _)
  | cons hd tl =>
    rw [hps] at hsp hhead
    simp only [List.headD_cons] at hhead
    subst hhead
    simp only [parse_response_code, hsp, Option.some.injEq]
    rw [headD_pySplit ['&'] hamp, upToFirst_amp]

/-! ### The claims -/

/-- C1: on a cache file containing a parsable token record (with its
integer `expires_at` stamp), `get_credentials` returns the cached record
unchanged — cache state included — when `is_token_expired` is false, and
when it is true (e.g. `expires_at` only 10 seconds ahead of `now`) it
calls `refresh_token` on the cached `refresh_token` value and returns the
refreshed record that call produced. -/
theorem C1_get_credentials_fresh_or_stale (http : Http) (now : Int)
    (creds : Obj) (texp : Int) (rv : JVal) (tok : Obj) (cache2 : CacheState)
    (hexp : dget creds "expires_at" = some (.int texp)) :
    (is_token_expired now texp = false →
      get_credentials http now (.parsed creds) =
        (.ok (some creds), .parsed creds)) ∧
    (is_token_expired now texp = true →
      dget creds "refresh_token" = some rv →
      refresh_token http now rv (.parsed creds) = (.ok tok, cache2) →
      get_credentials http now (.parsed creds) = (.ok (some tok), cache2)) := by
  constructor
  · intro hfresh
    simp [get_credentials, hexp, hfresh]
  · intro hstale hrt href
    simp [get_credentials, hexp, hstale, hrt, href]

/-- C1 witness: at time 1000 a cached `expires_at` of 1010 (10 seconds
ahead) triggers the refresh and the refreshed record is returned; at time
900 the same cache is returned unchanged. -/
theorem C1_witness :
    is_token_expired 1000 1010 = true ∧
    get_credentials sampleHttp 1000 (.parsed sampleCreds) =
      (.ok (some sampleSaved), .parsed sampleSaved) ∧
    get_credentials sampleHttp 900 (.parsed sampleCreds) =
      (.ok (some sampleCreds), .parsed sampleCreds) := by
  refine ⟨by decide, ?_, ?_⟩
  · exact (C1_get_credentials_fresh_or_stale sampleHttp 1000 sampleCreds 1010
      (.str "RT") sampleSaved (.parsed sampleSaved) (by decide)).2
      (by decide) (by decide) (by decide)
  · exact (C1_get_credentials_fresh_or_stale sampleHttp 900 sampleCreds 1010
      (.str "RT") sampleSaved (.parsed sampleSaved) (by decide)).1 (by decide)

/-- C2: `is_token_expired now x` is true exactly when `now + 30 > x`; it
is a pure function of the current time and the stored timestamp (it is a
plain function of those two arguments and nothing else). -/
theorem C2_is_token_expired_iff (now x : Int) :
    is_token_expired now x = true ↔ now + 30 > x := by
  simp [is_token_expired]

/-- C3 counterexample: the claim says the token-endpoint operations fail
exactly when the HTTP call fails or the body is not valid JSON *matching
the expected token shape*; but a response that is valid JSON with an
integer `expires_in` and none of `access_token`, `token_type`, `scope` or
`refresh_token` succeeds, is persisted, and is returned. -/
theorem C3_counterexample :
    refresh_token (fun _ => .body [("expires_in", JVal.int 5)]) 100
        (.str "r") .missing =
      (.ok [("expires_in", JVal.int 5), ("expires_at", JVal.int 105)],
       .parsed [("expires_in", JVal.int 5), ("expires_at", JVal.int 105)]) ∧
    dget [("expires_in", JVal.int 5), ("expires_at", JVal.int 105)]
      "access_token" = none := by
  decide

/-- C3 (amended): `retrieve_access_token` and `refresh_token` fail exactly
when the HTTP call fails, the response body is not valid JSON, or the
parsed body lacks an integer-convertible `expires_in`; the shape of the
remaining fields is never checked.  The failure is surfaced to the caller
with no retry and the cache is left unchanged; on success the parsed
token, stamped with `expires_at`, is persisted and returned. -/
theorem C3_token_endpoint_behavior (oauth : SpotifyOAuth) (http : Http)
    (now : Int) (rt : JVal) (code : String) (cache : CacheState) :
    (http (refresh_body rt) = .failed →
      refresh_token http now rt cache = (.error .requestsError, cache)) ∧
    (http (refresh_body rt) = .badBody →
      refresh_token http now rt cache = (.error .jsonDecodeError, cache)) ∧
    (∀ o, http (refresh_body rt) = .body o → dget o "expires_in" = none →
      refresh_token http now rt cache =
        (.error (.keyError "expires_in"), cache)) ∧
    (∀ o v, http (refresh_body rt) = .body o →
      dget o "expires_in" = some v → pyInt v = none →
      refresh_token http now rt cache = (.error .valueError, cache)) ∧
    (∀ o v n, http (refresh_body rt) = .body o →
      dget o "expires_in" = some v → pyInt v = some n →
      refresh_token http now rt cache =
        (.ok (dset o "expires_at" (.int (now + n))),
         .parsed (dset o "expires_at" (.int (now + n))))) ∧
    (http (exchange_body code oauth.redirect) = .failed →
      retrieve_access_token oauth http now code cache =
        (.error .requestsError, cache)) ∧
    (http (exchange_body code oauth.redirect) = .badBody →
      retrieve_access_token oauth http now code cache =
        (.error .jsonDecodeError, cache)) ∧
    (∀ o, http (exchange_body code oauth.redirect) = .body o →
      dget o "expires_in" = none →
      retrieve_access_token oauth http now code cache =
        (.error (.keyError "expires_in"), cache)) ∧
    (∀ o v, http (exchange_body code oauth.redirect) = .body o →
      dget o "expires_in" = some v → pyInt v = none →
      retrieve_access_token oauth http now code cache =
        (.error .valueError, cache)) ∧
    (∀ o v n, http (exchange_body code oauth.redirect) = .body o →
      dget o "expires_in" = some v → pyInt v = some n →
      retrieve_access_token oauth http now code cache =
        (.ok (dset o "expires_at" (.int (now + n))),
         .parsed (dset o "expires_at" (.int (now + n))))) := by
  refine ⟨?_, ?_, ?_, ?_, ?_, ?_, ?_, ?_, ?_, ?_⟩
  · intro h; simp [refresh_token, h]
  · intro h; simp [refresh_token, h]
  · intro o h1 h2; simp [refresh_token, save_token, h1, h2]
  · intro o v h1 h2 h3; simp [refresh_token, save_token, h1, h2, h3]
  · intro o v n h1 h2 h3; simp [refresh_token, save_token, h1, h2, h3]
  · intro h; simp [retrieve_access_token, h]
  · intro h; simp [retrieve_access_token, h]
  · intro o h1 h2; simp [retrieve_access_token, save_token, h1, h2]
  · intro o v h1 h2 h3; simp [retrieve_access_token, save_token, h1, h2, h3]
  · intro o v n h1 h2 h3; simp [retrieve_access_token, save_token, h1, h2, h3]

/-- C3 witness: a refresh against `sampleHttp` at time 1000 succeeds and
persists `sampleSaved`, and a refresh against a failing transport
surfaces the error with the cache unchanged. -/
theorem C3_witness :
    refresh_token sampleHttp 1000 (.str "RT") .missing =
      (.ok sampleSaved, .parsed sampleSaved) ∧
    refresh_token (fun _ => .failed) 1000 (.str "RT")
        (.parsed sampleCreds) =
      (.error .requestsError, .parsed sampleCreds) := by
  constructor
  · have h := (C3_token_endpoint_behavior ⟨"i", "s", "r", "sc", "c"⟩
      sampleHttp 1000 (.str "RT") "c" .missing).2.2.2.2.1 sampleResp
      (.int 3600) 3600 (by decide) (by decide) (by decide)
    exact h.trans (by decide)
  · exact (C3_token_endpoint_behavior ⟨"i", "s", "r", "sc", "c"⟩
      (fun _ => .failed) 1000 (.str "RT") "c" (.parsed sampleCreds)).1
      (by decide)

/-- C4 counterexample: on a URL where the marker `?code=` occurs twice,
`parse_response_code` returns the segment between the first and second
occurrence ("X"), not everything after the first occurrence up to the
next `&` ("X?code=Y") as the claimed contract
(`extractCodeFromRedirect_spec`) requires. -/
theorem C4_counterexample :
    parse_response_code "a?code=X?code=Y" = some "X" ∧
    extractCodeFromRedirect_spec "a?code=X?code=Y" = some "X?code=Y" ∧
    parse_response_code "a?code=X?code=Y" ≠
      extractCodeFromRedirect_spec "a?code=X?code=Y" := by
  decide

/-- C4 (amended): `parse_response_code` returns absent exactly when the
literal marker `?code=` does not occur in the URL (a soft-fail, not an
error), and when the marker occurs it returns the substring after the
first occurrence truncated at the first following `&` or the first
following occurrence of `?code=`, whichever comes first.  In particular
`?code=ABC123&state=xyz` yields "ABC123" and `?state=xyz&code=ABC`
yields absent. -/
theorem C4_parse_response_code_amended (url : String) :
    (parse_response_code url = none ↔
      afterFirst ("?code=".data) url.data = none) ∧
    (∀ t, afterFirst ("?code=".data) url.data = some t →
      parse_response_code url =
        some (String.mk (upToStop ("?code=".data) t))) :=
  ⟨parse_code_none_iff url, fun t ht => parse_code_some url t ht⟩

/-- C4 witness: the two redirect shapes named by the spec. -/
theorem C4_witness :
    parse_response_code "https://app/cb?code=ABC123&state=xyz" =
      some "ABC123" ∧
    parse_response_code "https://app/cb?state=xyz&code=ABC" = none := by
  constructor
  · have h := (C4_parse_response_code_amended
      "https://app/cb?code=ABC123&state=xyz").2 ("ABC123&state=xyz".data)
      (by decide)
    exact h.trans (by decide)
  · exact (C4_parse_response_code_amended
      "https://app/cb?state=xyz&code=ABC").1.mpr (by decide)

/-- C5: every token record written to the cache by `save_token` (hence by
either token-endpoint operation) carries `expires_at = now + expires_in`,
computed at save time and overriding any server-provided value; the cache
is overwritten wholesale with exactly the response fields plus
`expires_at`, so a response without `refresh_token` yields a cache entry
without `refresh_token`. -/
theorem C5_save_token_invariant (now : Int) (token : Obj)
    (cache : CacheState) (v : JVal) (n : Int)
    (hin : dget token "expires_in" = some v) (hn : pyInt v = some n) :
    save_token now token cache =
      (.ok (dset token "expires_at" (.int (now + n))),
       .parsed (dset token "expires_at" (.int (now + n)))) ∧
    dget (dset token "expires_at" (.int (now + n))) "expires_at" =
      some (.int (now + n)) ∧
    (dget token "refresh_token" = none →
      dget (dset token "expires_at" (.int (now + n))) "refresh_token" =
        none) := by
  refine ⟨by simp [save_token, hin, hn], dget_dset_self _ _ _, fun h => ?_⟩
  rw [dget_dset_ne _ _ _ _ (by decide)]
  exact h

/-- C5 witness: saving a response without `refresh_token` at time 1000
overwrites the cache with the response fields plus `expires_at = 4600`,
and the written record has no `refresh_token`. -/
theorem C5_witness :
    save_token 1000 sampleRespNoRT CacheState.missing =
      (.ok (dset sampleRespNoRT "expires_at" (JVal.int (1000 + 3600))),
       .parsed (dset sampleRespNoRT "expires_at" (JVal.int (1000 + 3600)))) ∧
    dget (dset sampleRespNoRT "expires_at" (JVal.int (1000 + 3600)))
      "refresh_token" = none := by
  have h := C5_save_token_invariant 1000 sampleRespNoRT .missing
    (.int 3600) 3600 (by decide) (by decide)
  exact ⟨h.1, h.2.2 (by decide)⟩

/-- C6: saving a token then reading the cache back yields a record equal
to the saved one plus the injected `expires_at` field, and `expires_at`
equals the save time plus `expires_in` (exactly, in this integer-seconds
model of `round(time.time())`, hence within the claimed 1-second
tolerance). -/
theorem C6_save_read_roundtrip (now : Int) (token : Obj)
    (cache : CacheState) (v : JVal) (n : Int)
    (hin : dget token "expires_in" = some v) (hn : pyInt v = some n) :
    ∃ written, save_token now token cache = (.ok written, .parsed written) ∧
      read_cache (.parsed written) = .ok written ∧
      written = dset token "expires_at" (.int (now + n)) ∧
      dget written "expires_at" = some (.int (now + n)) :=
  ⟨dset token "expires_at" (.int (now + n)),
   by simp [save_token, hin, hn], rfl, rfl, dget_dset_self _ _ _⟩

/-- C6 witness: the round-trip at time 1000 on `sampleResp`. -/
theorem C6_witness :
    ∃ written, save_token 1000 sampleResp CacheState.missing =
        (.ok written, .parsed written) ∧
      read_cache (.parsed written) = .ok written ∧
      written = dset sampleResp "expires_at" (JVal.int (1000 + 3600)) ∧
      dget written "expires_at" = some (JVal.int (1000 + 3600)) :=
  C6_save_read_roundtrip 1000 sampleResp .missing (.int 3600) 3600
    (by decide) (by decide)

/-- C7: `get_credentials` on a missing cache file or on one whose
contents are not valid JSON returns the sentinel `None` (`.ok none`)
without raising, leaving the cache untouched. -/
theorem C7_get_credentials_soft_fail (http : Http) (now : Int) :
    get_credentials http now .missing = (.ok none, .missing) ∧
    get_credentials http now .invalidJson = (.ok none, .invalidJson) :=
  ⟨rfl, rfl⟩

/-- C8: `get_authorize_url` is a plain function of the configuration; it
returns the authorization endpoint followed by exactly the query
parameters `client_id`, `response_type=code`, `redirect_uri` and `scope`,
each value encoded by `quote_plus` (standard URL query encoding, with `+`
for space); and decoding any of the three configured values with the
standard query-string decoder recovers exactly its UTF-8 byte sequence,
i.e. the configured string itself. -/
theorem C8_get_authorize_url (oauth : SpotifyOAuth) :
    get_authorize_url oauth =
      "https://accounts.spotify.com/authorize?client_id=" ++
      quote_plus oauth.client_id ++ "&response_type=code&redirect_uri=" ++
      quote_plus oauth.redirect ++ "&scope=" ++ quote_plus oauth.scopes ∧
    pctDecodeBytes (quote_plus oauth.scopes).data = strBytes oauth.scopes ∧
    pctDecodeBytes (quote_plus oauth.redirect).data =
      strBytes oauth.redirect ∧
    pctDecodeBytes (quote_plus oauth.client_id).data =
      strBytes oauth.client_id := by
  refine ⟨?_, pctDecode_quote_plus _, pctDecode_quote_plus _,
    pctDecode_quote_plus _⟩
  simp only [get_authorize_url, urlencode, oauth_auth_url,
    String.append_assoc]
  rfl

/-- C9: the soft-fail of `get_credentials` covers only the file-read and
JSON-decode errors; a cache that is valid JSON but lacks `expires_at`, or
lacks `refresh_token` when the token is stale, raises a KeyError to the
caller instead of returning the sentinel. -/
theorem C9_get_credentials_keyerror (http : Http) (now : Int) (creds : Obj) :
    (dget creds "expires_at" = none →
      get_credentials http now (.parsed creds) =
        (.error (.keyError "expires_at"), .parsed creds)) ∧
    (∀ texp, dget creds "expires_at" = some (.int texp) →
      is_token_expired now texp = true →
      dget creds "refresh_token" = none →
      get_credentials http now (.parsed creds) =
        (.error (.keyError "refresh_token"), .parsed creds)) := by
  constructor
  · intro h
    simp [get_credentials, h]
  · intro texp h1 h2 h3
    simp [get_credentials, h1, h2, h3]

/-- C9 witness: a cache without `expires_at` raises KeyError, and a stale
cache without `refresh_token` raises KeyError. -/
theorem C9_witness :
    get_credentials sampleHttp 1000
        (.parsed [("access_token", JVal.str "x")]) =
      (.error (.keyError "expires_at"),
       .parsed [("access_token", JVal.str "x")]) ∧
    get_credentials sampleHttp 1000
        (.parsed [("access_token", JVal.str "x"), ("expires_at", JVal.int 0)]) =
      (.error (.keyError "refresh_token"),
       .parsed [("access_token", JVal.str "x"), ("expires_at", JVal.int 0)]) := by
  constructor
  · exact (C9_get_credentials_keyerror sampleHttp 1000 _).1 (by decide)
  · exact (C9_get_credentials_keyerror sampleHttp 1000 _).2 0
      (by decide) (by decide) (by decide)

/-- C10: when a token-endpoint response parses as JSON but lacks
`expires_in`, both operations raise the KeyError inside the `expires_at`
computation, before the cache file is opened for writing, so the
previously cached token is left unchanged. -/
theorem C10_missing_expires_in (oauth : SpotifyOAuth) (http : Http)
    (now : Int) (rt : JVal) (code : String) (cache : CacheState) (o : Obj) :
    (http (refresh_body rt) = .body o → dget o "expires_in" = none →
      refresh_token http now rt cache =
        (.error (.keyError "expires_in"), cache)) ∧
    (http (exchange_body code oauth.redirect) = .body o →
      dget o "expires_in" = none →
      retrieve_access_token oauth http now code cache =
        (.error (.keyError "expires_in"), cache)) := by
  constructor
  · intro h1 h2
    simp [refresh_token, save_token, h1, h2]
  · intro h1 h2
    simp [retrieve_access_token, save_token, h1, h2]

/-- C10 witness: a response without `expires_in` fails both operations and
leaves the previously cached token in place. -/
theorem C10_witness :
    refresh_token (fun _ => .body [("access_token", JVal.str "x")]) 1000
        (.str "RT") (.parsed sampleCreds) =
      (.error (.keyError "expires_in"), .parsed sampleCreds) ∧
    retrieve_access_token ⟨"i", "s", "r", "sc", "c"⟩
        (fun _ => .body [("access_token", JVal.str "x")]) 1000 "code"
        (.parsed sampleCreds) =
      (.error (.keyError "expires_in"), .parsed sampleCreds) := by
  constructor
  · exact (C10_missing_expires_in ⟨"i", "s", "r", "sc", "c"⟩
      (fun _ => .body [("access_token", JVal.str "x")]) 1000 (.str "RT")
      "code" (.parsed sampleCreds) [("access_token", JVal.str "x")]).1
      (by decide) (by decide)
  · exact (C10_missing_expires_in ⟨"i", "s", "r", "sc", "c"⟩
      (fun _ => .body [("access_token", JVal.str "x")]) 1000 (.str "RT")
      "code" (.parsed sampleCreds) [("access_token", JVal.str "x")]).2
      (by decide) (by decide)
